import Mathlib

/-!
# Sourcetrail: the set-value task and the Java project preparation

Shallow embedding of

* `src/lib/utility/scheduling/TaskSetValue.h` (the leaf task `TaskSetValue<T>`), and
* `src/lib_java/JavaProject.cpp` (`prepareIndexing`, `getIndexerCommands`,
  `fetchRootDirectories`).

`Task.h`, `Blackboard.h`, `FilePath`, `FileSystem`, the Maven utilities and the Java
environment are not part of the two files; the blackboard and the task state are modelled
from the specification, the others are taken as parameters.
-/

namespace Sourcetrail

/-! ## Task state and blackboard -/

/-- Modelled from the spec: the run state declared in `Task.h` (absent), the three values
`Running`, `Success`, `Failure` of section 3, under the enumerator names used by
`TaskSetValue.h`. -/
inductive TaskState where
  | STATE_RUNNING
  | STATE_SUCCESS
  | STATE_FAILURE
  deriving DecidableEq

/-- Modelled from the spec: the two failures of the typed blackboard API of section 6
(`Blackboard.h` is absent). -/
inductive BlackboardError where
  | KeyNotFound
  | TypeMismatch
  deriving DecidableEq

/-- Modelled from the spec: a type-erased blackboard value (`Blackboard.h` is absent), a
runtime type tag together with a value of the type the tag stands for.  `τ` is the
collection of consumer-defined value types and `Val t` the values of type `t`. -/
structure BlackboardItem (τ : Type) (Val : τ → Type) where
  tag : τ
  value : Val tag

/-- Modelled from the spec: the blackboard of `Blackboard.h` (absent), "an open-ended
mapping from string key to a typed value of any consumer-defined type".  The mutex only
orders accesses of different threads and is not part of the sequential state. -/
def Blackboard (τ : Type) (Val : τ → Type) : Type :=
  String → Option (BlackboardItem τ Val)

namespace Blackboard

variable {τ : Type} {Val : τ → Type}

/-- Modelled from the spec: a blackboard with no key (`Blackboard.h` is absent). -/
def empty : Blackboard τ Val := fun _ => none

/-- Modelled from the spec: `set<T>(key, value)` of `Blackboard.h` (absent), which
"creates or overwrites", whatever the type stored before. -/
def set (b : Blackboard τ Val) (T : τ) (key : String) (value : Val T) : Blackboard τ Val :=
  fun k => if k = key then some ⟨T, value⟩ else b k

/-- Modelled from the spec: `has(key)` of `Blackboard.h` (absent). -/
def has (b : Blackboard τ Val) (key : String) : Bool :=
  (b key).isSome

/-- Modelled from the spec: `get<T>(key)` of `Blackboard.h` (absent), which "fails with
`TypeMismatch` if the stored type differs, `KeyNotFound` if absent". -/
def get [DecidableEq τ] (b : Blackboard τ Val) (T : τ) (key : String) :
    Except BlackboardError (Val T) :=
  match b key with
  | none => .error .KeyNotFound
  | some item => if h : item.tag = T then .ok (h ▸ item.value) else .error .TypeMismatch

/-- Modelled from the spec: the type a key is associated with, if any (`Blackboard.h` is
absent); this is the runtime type tag that `get<T>` checks. -/
def typeOf (b : Blackboard τ Val) (key : String) : Option τ :=
  (b key).map (fun item => item.tag)

end Blackboard

/-! ## `TaskSetValue<T>` -/

/-- The data members of `TaskSetValue<T>`: `const std::string m_valueName` and
`const T m_value`, both fixed by the constructor. -/
structure TaskSetValue {τ : Type} (Val : τ → Type) (T : τ) where
  m_valueName : String
  m_value : Val T

namespace TaskSetValue

variable {τ : Type} {Val : τ → Type} {T : τ}

/-- The constructor `TaskSetValue<T>::TaskSetValue(valueName, value)`. -/
def new (valueName : String) (value : Val T) : TaskSetValue Val T :=
  ⟨valueName, value⟩

/-- `TaskSetValue<T>::doEnter`: the body is empty.  The task object and the blackboard are
passed through explicitly. -/
def doEnter (task : TaskSetValue Val T) (blackboard : Blackboard τ Val) :
    TaskSetValue Val T × Blackboard τ Val :=
  (task, blackboard)

/-- `TaskSetValue<T>::doUpdate`: under the lock guard on the blackboard's mutex, which is
released on return, `blackboard->set<T>(m_valueName, m_value)` and then
`return STATE_SUCCESS`. -/
def doUpdate (task : TaskSetValue Val T) (blackboard : Blackboard τ Val) :
    TaskState × TaskSetValue Val T × Blackboard τ Val :=
  let blackboard := blackboard.set T task.m_valueName task.m_value
  (TaskState.STATE_SUCCESS, task, blackboard)

/-- `TaskSetValue<T>::doExit`: the body is empty. -/
def doExit (task : TaskSetValue Val T) (blackboard : Blackboard τ Val) :
    TaskSetValue Val T × Blackboard τ Val :=
  (task, blackboard)

/-- `TaskSetValue<T>::doReset`: the body is empty. -/
def doReset (task : TaskSetValue Val T) (blackboard : Blackboard τ Val) :
    TaskSetValue Val T × Blackboard τ Val :=
  (task, blackboard)

/-- The blackboard left by `n` consecutive calls of `doUpdate` on the same task. -/
def updates (task : TaskSetValue Val T) : Nat → Blackboard τ Val → Blackboard τ Val
  | 0, blackboard => blackboard
  | n + 1, blackboard => updates task n (doUpdate task blackboard).2.2

end TaskSetValue

/-! ## A small universe of value types, for concrete evaluations -/

/-- Two value types a consumer may store: `int` and `std::string`. -/
inductive DemoType where
  | int
  | string
  deriving DecidableEq

/-- The values of each demo type. -/
def DemoVal : DemoType → Type
  | .int => Int
  | .string => String

/-- A blackboard on which the key `"progress"` holds the `int` 7. -/
def demoBoard : Blackboard DemoType DemoVal :=
  Blackboard.empty.set DemoType.int "progress" (7 : Int)

/-- The task `TaskSetValue<std::string>("progress", "done")`. -/
def demoStringTask : TaskSetValue DemoVal DemoType.string :=
  TaskSetValue.new "progress" ("done" : String)

/-- The task `TaskSetValue<int>("progress", 100)`. -/
def demoIntTask : TaskSetValue DemoVal DemoType.int :=
  TaskSetValue.new "progress" (100 : Int)

/-! ## `JavaProject`: collaborators taken as parameters -/

/-- The operations of `FilePath` used by `JavaProject.cpp`; the class itself is not in the
file, so they are parameters.  `ofString` is the conversion from `std::string`, applied
where the code pushes a string into a `std::vector<FilePath>`. -/
structure FilePathOps (P : Type) where
  pathExists : P → Bool
  parentDirectory : P → P
  fileName : P → String
  str : P → String
  ofString : String → P

/-- The getters of `JavaProjectSettings` read by `JavaProject.cpp`. -/
structure JavaProjectSettings (P : Type) where
  getAbsoluteMavenProjectFilePath : P
  getAbsoluteMavenDependenciesDirectory : P
  getAbsoluteClasspaths : List P
  getAbsoluteSourcePaths : List P
  getAbsoluteExcludePaths : List P
  getSourceExtensions : List String
  getShouldIndexMavenTests : Bool

/-- The paths handed to `FileManager::setPaths` by `updateFileManager`. -/
structure FileManager (P : Type) where
  sourcePaths : List P
  headerPaths : List P
  excludePaths : List P
  sourceExtensions : List String

/-- A default-constructed `FileManager`. -/
def FileManager.new {P : Type} : FileManager P := ⟨[], [], [], []⟩

/-- `FileManager::setPaths`. -/
def FileManager.setPaths {P : Type} (_fileManager : FileManager P)
    (sourcePaths headerPaths excludePaths : List P) (sourceExtensions : List String) :
    FileManager P :=
  ⟨sourcePaths, headerPaths, excludePaths, sourceExtensions⟩

/-- The remaining collaborators of `JavaProject.cpp`, none of them in the file:
* `win32`: whether `_WIN32` is defined;
* `getJavaPath`: `ResourcePaths::getJavaPath()`;
* `createInstance`: `JavaEnvironmentFactory::createInstance(classPath, errorString)`,
  giving whether an instance exists afterwards and the error string;
* `hasGUI`: `Application::getInstance()->hasGUI()`;
* `getMavenPath`: `ApplicationSettings::getInstance()->getMavenPath()`;
* `mavenGenerateSources`, `mavenCopyDependencies`,
  `mavenGetAllDirectoriesFromEffectivePom`: the functions of `utilityMaven.h`;
* `getFileNamesFromDirectory`: `FileSystem::getFileNamesFromDirectory`;
* `fetchFilePaths`: `fileManager.fetchFilePaths(std::vector<FileInfo>()).addedFiles`,
  in iteration order;
* `getText`: `TextAccess::createFromFile(path)->getText()`;
* `getPackageName`: the static Java method `io/coati/JavaIndexer.getPackageName`, called
  through the environment of the factory instance (the empty string when the call leaves
  the out-parameter untouched);
* `splitToVector`: `utility::splitToVector`;
* `getSourceFilePaths`: `Project::getSourceFilePaths()`. -/
structure Collaborators (P : Type) where
  win32 : Bool
  getJavaPath : String
  createInstance : String → Bool × String
  hasGUI : Bool
  getMavenPath : P
  mavenGenerateSources : P → P → Bool
  mavenCopyDependencies : P → P → P → Bool
  mavenGetAllDirectoriesFromEffectivePom : P → P → Bool → List P
  getFileNamesFromDirectory : String → List String → List String
  fetchFilePaths : FileManager P → List P
  getText : String → String
  getPackageName : String → String
  splitToVector : String → String → List String
  getSourceFilePaths : List P

/-- The observable calls made by `JavaProject.cpp`, in the order they happen. -/
inductive Event (P : Type) where
  | createInstance (classPath : String)
  | logError (message : String)
  | messageStatus (message : String)
  | handleDialog (message : String)
  | showStatusDialog (title : String) (message : String)
  | hideStatusDialog
  | mavenGenerateSources (mavenPath : P) (projectRootPath : P)
  | mavenCopyDependencies (mavenPath : P) (projectRootPath : P) (dependencies : P)
  deriving DecidableEq

/-- The mutable state `JavaProject.cpp` reads and writes: the member `m_rootDirectories`
(a shared pointer to a `std::set<FilePath>`, `none` when null) and whether the singleton
`JavaEnvironmentFactory::getInstance()` is non-null. -/
structure JavaProject (P : Type) where
  m_rootDirectories : Option (List P)
  factoryInstance : Bool
  deriving DecidableEq

/-- `std::set<FilePath>::insert`: the set is kept as the list of its elements in increasing
order; an element equivalent to one already present is not inserted. -/
def setInsert {P : Type} [LinearOrder P] (a : P) : List P → List P
  | [] => [a]
  | y :: ys =>
    if a < y then a :: y :: ys
    else if y < a then y :: setInsert a ys
    else y :: ys

/-- The path separator chosen by the `#ifdef _WIN32` of `prepareIndexing`. -/
def separator {P : Type} (env : Collaborators P) : String :=
  if env.win32 then ";" else ":"

/-- The class path string `prepareIndexing` passes to `createInstance`. -/
def javaClassPath {P : Type} (env : Collaborators P) : String :=
  env.getJavaPath ++ "guava-18.0.jar" ++ separator env ++
  env.getJavaPath ++ "java-indexer.jar" ++ separator env ++
  env.getJavaPath ++ "javaparser-core.jar" ++ separator env ++
  env.getJavaPath ++ "javaslang-2.0.3.jar" ++ separator env ++
  env.getJavaPath ++ "javassist-3.19.0-GA.jar" ++ separator env ++
  env.getJavaPath ++ "java-symbol-solver-core.jar" ++ separator env ++
  env.getJavaPath ++ "java-symbol-solver-logic.jar" ++ separator env ++
  env.getJavaPath ++ "java-symbol-solver-model.jar"

/-- The first block of `prepareIndexing`: `m_rootDirectories.reset()`, then the creation
attempt, made only when `getInstance()` is null.  Returns the state, the error string and
the calls made. -/
def createFactory {P : Type} (env : Collaborators P) (project : JavaProject P) :
    JavaProject P × String × List (Event P) :=
  let project : JavaProject P := ⟨none, project.factoryInstance⟩
  if !project.factoryInstance then
    let created := env.createInstance (javaClassPath env)
    (⟨project.m_rootDirectories, created.1⟩, created.2,
      [Event.createInstance (javaClassPath env)])
  else
    (project, "", [])

/-- The dialog text of `prepareIndexing` when no factory instance exists. -/
def javaMissingMessage (errorString : String) : String :=
  let dialogMessage :=
    "Coati was unable to locate Java on this machine.\n" ++
    "Please make sure to provide the correct Java Path in the preferences."
  if errorString.length > 0 then dialogMessage ++ ("\n\nError: " ++ errorString)
  else dialogMessage

/-- The dialog text of `prepareIndexing` when Maven source generation fails. -/
def mavenMissingMessage : String :=
  "Coati was unable to locate Maven on this machine.\n" ++
  "Please make sure to provide the correct Maven Path in the preferences."

/-- `JavaProject::prepareIndexing`: the returned flag, the state afterwards and the calls
made.  The `ScopedFunctor` hides the status dialog when the GUI block is left, on both
ways out of it. -/
def prepareIndexing {P : Type} (ops : FilePathOps P) (settings : JavaProjectSettings P)
    (env : Collaborators P) (project : JavaProject P) :
    Bool × JavaProject P × List (Event P) :=
  let (project, errorString, created) := createFactory env project
  let reported : List (Event P) :=
    if errorString.length > 0 then
      [Event.logError errorString, Event.messageStatus errorString]
    else []
  if !project.factoryInstance then
    let dialogMessage := javaMissingMessage errorString
    (false, project, created ++ reported ++
      [Event.messageStatus dialogMessage, Event.handleDialog dialogMessage])
  else if ops.pathExists settings.getAbsoluteMavenProjectFilePath then
    let mavenPath := env.getMavenPath
    let projectRootPath := ops.parentDirectory settings.getAbsoluteMavenProjectFilePath
    let copy : Event P := Event.mavenCopyDependencies mavenPath projectRootPath
      settings.getAbsoluteMavenDependenciesDirectory
    if env.hasGUI then
      let generate : List (Event P) :=
        [Event.showStatusDialog "Preparing Project" "Maven\nGenerating Source Files",
          Event.mavenGenerateSources mavenPath projectRootPath]
      let success := env.mavenGenerateSources mavenPath projectRootPath
      if !success then
        (false, project, created ++ reported ++ generate ++
          [Event.messageStatus mavenMissingMessage, Event.handleDialog mavenMissingMessage,
            Event.hideStatusDialog])
      else
        (true, project, created ++ reported ++ generate ++
          [Event.showStatusDialog "Preparing Project" "Maven\nExporting Dependencies",
            Event.hideStatusDialog, copy])
    else
      (true, project, created ++ reported ++ [copy])
  else
    (true, project, created ++ reported)

/-! ## `JavaProject::updateFileManager` and `JavaProject::fetchRootDirectories` -/

/-- `JavaProject::updateFileManager`: the file manager after `setPaths` and the dialog
calls made. -/
def updateFileManager {P : Type} (ops : FilePathOps P) (settings : JavaProjectSettings P)
    (env : Collaborators P) (fileManager : FileManager P) :
    FileManager P × List (Event P) :=
  let (sourcePaths, events) :=
    if ops.pathExists settings.getAbsoluteMavenProjectFilePath then
      let mavenPath := env.getMavenPath
      let projectRootPath := ops.parentDirectory settings.getAbsoluteMavenProjectFilePath
      (env.mavenGetAllDirectoriesFromEffectivePom mavenPath projectRootPath
          settings.getShouldIndexMavenTests,
        if env.hasGUI then
          [Event.showStatusDialog "Preparing Project" "Maven\nFetching Source Directories",
            Event.hideStatusDialog]
        else [])
    else
      (settings.getAbsoluteSourcePaths, [])
  let headerPaths := sourcePaths
  let sourceExtensions := settings.getSourceExtensions
  let excludePaths := settings.getAbsoluteExcludePaths
  (fileManager.setPaths sourcePaths headerPaths excludePaths sourceExtensions, events)

/-- The inner loop of `fetchRootDirectories` over the package name parts, handed over
already reversed (the loop runs from `rbegin()` to `rend()`): the final `rootPath` and the
flag `success`. -/
def stripPackage {P : Type} (ops : FilePathOps P) : P → List String → P × Bool
  | rootPath, [] => (rootPath, true)
  | rootPath, part :: rest =>
    if ops.fileName rootPath != part then (rootPath, false)
    else stripPackage ops (ops.parentDirectory rootPath) rest

/-- The package name `fetchRootDirectories` obtains for a file: the Java method applied to
the text read from the file. -/
def packageNameOf {P : Type} (ops : FilePathOps P) (env : Collaborators P) (filePath : P) :
    String :=
  env.getPackageName (env.getText (ops.str filePath))

/-- One iteration of the loop of `fetchRootDirectories` over `fileSets.addedFiles`. -/
def fetchRootStep {P : Type} [LinearOrder P] (ops : FilePathOps P) (env : Collaborators P)
    (rootDirectories : List P) (filePath : P) : List P :=
  let packageName := packageNameOf ops env filePath
  if packageName.isEmpty then rootDirectories
  else
    let packageNameParts := env.splitToVector packageName "."
    let (rootPath, success) :=
      stripPackage ops (ops.parentDirectory filePath) packageNameParts.reverse
    if success then setInsert rootPath rootDirectories else rootDirectories

/-- The files `fetchRootDirectories` scans. -/
def addedFiles {P : Type} (ops : FilePathOps P) (settings : JavaProjectSettings P)
    (env : Collaborators P) : List P :=
  env.fetchFilePaths (updateFileManager ops settings env FileManager.new).1

/-- `JavaProject::fetchRootDirectories`: `m_rootDirectories` is replaced by a fresh set,
filled by the loop over the added files.  Before the loop the code calls
`JavaEnvironmentFactory::getInstance()->createEnvironment()` with no null check; when no
factory instance exists that dereference has no defined outcome and the model returns
`none`. -/
def fetchRootDirectories {P : Type} [LinearOrder P] (ops : FilePathOps P)
    (settings : JavaProjectSettings P) (env : Collaborators P) (project : JavaProject P) :
    Option (JavaProject P × List (Event P)) :=
  let rootDirectories : List P := []
  let updated := updateFileManager ops settings env FileManager.new
  let files := env.fetchFilePaths updated.1
  if !project.factoryInstance then none
  else
    let rootDirectories := files.foldl (fetchRootStep ops env) rootDirectories
    some (⟨some rootDirectories, project.factoryInstance⟩, updated.2)

/-! ## `JavaProject::getIndexerCommands` -/

/-- The condition of claim C8, in the claim's words: the package name of the file is not
empty and, with `p1..pn` its parts, the `n` innermost directory names above the file are,
from the innermost outward, `pn, ..., p1`. -/
def packageChainMatches {P : Type} (ops : FilePathOps P) (env : Collaborators P)
    (filePath : P) : Prop :=
  packageNameOf ops env filePath ≠ "" ∧
  ∀ i : Nat, i < (env.splitToVector (packageNameOf ops env filePath) ".").length →
    (env.splitToVector (packageNameOf ops env filePath) ".")[
        (env.splitToVector (packageNameOf ops env filePath) ".").length - 1 - i]?
      = some (ops.fileName (ops.parentDirectory^[i + 1] filePath))

/-- The root of claim C8, in the claim's words: the file's parent directory with the `n`
components of the package removed. -/
def packageRoot {P : Type} (ops : FilePathOps P) (env : Collaborators P) (filePath : P) :
    P :=
  ops.parentDirectory^[(env.splitToVector (packageNameOf ops env filePath) ".").length]
    (ops.parentDirectory filePath)

/-- The collaborators `env` with `mavenCopyDependencies` replaced. -/
def withMavenCopyDependencies {P : Type} (env : Collaborators P)
    (mavenCopyDependencies : P → P → P → Bool) : Collaborators P :=
  { env with mavenCopyDependencies := mavenCopyDependencies }

/-! ## A small file system, for concrete evaluations -/

/-- Concrete paths: the list of component numbers from the outermost directory to the
path's own name. -/
abbrev DemoPath : Type := List Nat

/-- The name of each component number. -/
def demoName : Nat → String
  | 0 => "src"
  | 1 => "com"
  | 2 => "foo"
  | 3 => "Main.java"
  | 4 => "lib"
  | 6 => "dangling.jar"
  | 7 => "guava.jar"
  | _ => "other"

/-- Path operations on `DemoPath`: every path of length at most 4 exists. -/
def demoOps : FilePathOps DemoPath where
  pathExists := fun p => decide (p.length ≤ 4)
  parentDirectory := fun p => p.dropLast
  fileName := fun p => match p.getLast? with
    | some c => demoName c
    | none => ""
  str := fun p => String.intercalate "/" (p.map demoName)
  ofString := fun text =>
    if text = "src" then [0] else if text = "lib" then [4] else [5]

/-- Settings without a Maven project file (`[5, 5, 5, 5, 5]` does not exist). -/
def demoSettings : JavaProjectSettings DemoPath where
  getAbsoluteMavenProjectFilePath := [5, 5, 5, 5, 5]
  getAbsoluteMavenDependenciesDirectory := [5, 5, 5, 5, 5]
  getAbsoluteClasspaths := [[4], [4, 5, 5, 5, 5]]
  getAbsoluteSourcePaths := [[0]]
  getAbsoluteExcludePaths := []
  getSourceExtensions := [".java"]
  getShouldIndexMavenTests := false

/-- Collaborators without a GUI: one scanned file `src/com/foo/Main.java` whose package
is `com.foo`. -/
def demoEnv : Collaborators DemoPath where
  win32 := false
  getJavaPath := "java/"
  createInstance := fun _ => (true, "")
  hasGUI := false
  getMavenPath := [5]
  mavenGenerateSources := fun _ _ => true
  mavenCopyDependencies := fun _ _ _ => true
  mavenGetAllDirectoriesFromEffectivePom := fun _ _ _ => []
  getFileNamesFromDirectory := fun _ _ => []
  fetchFilePaths := fun _ => [[0, 1, 2, 3]]
  getText := fun path => path
  getPackageName := fun _ => "com.foo"
  splitToVector := fun text _ => if text = "com.foo" then ["com", "foo"] else [text]
  getSourceFilePaths := [[0, 1, 2, 3]]

/-- A project state with cached root directories and a factory instance. -/
def demoProject : JavaProject DemoPath := ⟨some [[0]], true⟩

/-- A project state as `prepareIndexing` leaves it on success: no cached root directories,
a factory instance. -/
def preparedProject : JavaProject DemoPath := ⟨none, true⟩

/-- C1: for every key, value and prior blackboard, `doUpdate` returns `STATE_SUCCESS`, never
`STATE_RUNNING` or `STATE_FAILURE`, on the first call and on the call after any number `n`
of earlier calls. -/
theorem C1_doUpdate_returns_success {τ : Type} {Val : τ → Type} {T : τ}
    (key : String) (value : Val T) (b : Blackboard τ Val) (n : Nat) :
    let task : TaskSetValue Val T := TaskSetValue.new key value
    (task.doUpdate b).1 = TaskState.STATE_SUCCESS ∧
    (task.doUpdate (task.updates n b)).1 = TaskState.STATE_SUCCESS ∧
    (task.doUpdate (task.updates n b)).1 ≠ TaskState.STATE_RUNNING ∧
    (task.doUpdate (task.updates n b)).1 ≠ TaskState.STATE_FAILURE := by
  intro task
  refine ⟨rfl, rfl, ?_, ?_⟩ <;> simp [TaskSetValue.doUpdate]

/-- C2: for every key `k`, value `v` of type `T` and prior blackboard (whether `k` is
absent, holds a `T` or holds a value of another type), after `doUpdate` the blackboard has
`k` and `get<T>(k)` returns `v`, so neither `KeyNotFound` nor `TypeMismatch`. -/
theorem C2_doUpdate_then_get {τ : Type} [DecidableEq τ] {Val : τ → Type} {T : τ}
    (k : String) (v : Val T) (b : Blackboard τ Val) :
    let after := ((TaskSetValue.new k v : TaskSetValue Val T).doUpdate b).2.2
    after.has k = true ∧ after.get T k = Except.ok v := by
  simp [TaskSetValue.doUpdate, TaskSetValue.new, Blackboard.set, Blackboard.has,
    Blackboard.get]

/-- C3: `doUpdate` is idempotent: a second call in a row returns the same state and leaves
the same task and the same blackboard as the first call did. -/
theorem C3_doUpdate_idempotent {τ : Type} {Val : τ → Type} {T : τ}
    (k : String) (v : Val T) (b : Blackboard τ Val) :
    let task : TaskSetValue Val T := TaskSetValue.new k v
    (task.doUpdate b).2.1.doUpdate (task.doUpdate b).2.2 = task.doUpdate b := by
  intro task
  simp only [TaskSetValue.doUpdate]
  refine Prod.ext rfl (Prod.ext rfl ?_)
  funext k'
  simp only [Blackboard.set]
  split <;> rfl

/-- C4: `doEnter`, `doExit` and `doReset` leave the blackboard and the task's key and value
unchanged, and two resets in a row leave the same task and blackboard as one. -/
theorem C4_enter_exit_reset_do_nothing {τ : Type} {Val : τ → Type} {T : τ}
    (task : TaskSetValue Val T) (b : Blackboard τ Val) :
    task.doEnter b = (task, b) ∧ task.doExit b = (task, b) ∧ task.doReset b = (task, b) ∧
    (task.doReset b).1.m_valueName = task.m_valueName ∧
    (task.doReset b).1.m_value = task.m_value ∧
    (task.doReset b).1.doReset (task.doReset b).2 = task.doReset b :=
  ⟨rfl, rfl, rfl, rfl, rfl, rfl⟩

/-- C5, as stated, fails: on a blackboard where `"progress"` is associated with an `int`,
`TaskSetValue<std::string>("progress", "done").doUpdate` leaves it associated with a
`std::string`, no longer with an `int`. -/
theorem C5_type_not_preserved_counterexample :
    demoBoard.typeOf "progress" = some DemoType.int ∧
    (demoStringTask.doUpdate demoBoard).2.2.typeOf "progress" = some DemoType.string ∧
    (demoStringTask.doUpdate demoBoard).2.2.typeOf "progress" ≠ some DemoType.int := by
  decide

/-- C5, amended: on a blackboard where `k` is associated with type `U`, after
`TaskSetValue<T>(k, v).doUpdate` the key `k` is associated with the written type `T`; it is
still associated with `U` exactly when `T = U`. -/
theorem C5_type_after_update {τ : Type} {Val : τ → Type} {T : τ}
    (U : τ) (k : String) (v : Val T) (b : Blackboard τ Val)
    (hU : b.typeOf k = some U) :
    let after := ((TaskSetValue.new k v : TaskSetValue Val T).doUpdate b).2.2
    after.typeOf k = some T ∧ (after.typeOf k = b.typeOf k ↔ T = U) := by
  intro after
  have hT : after.typeOf k = some T := by
    simp [after, TaskSetValue.doUpdate, TaskSetValue.new, Blackboard.set, Blackboard.typeOf]
  refine ⟨hT, ?_⟩
  rw [hT, hU]
  simp

/-- C5, amended, at a concrete input: writing an `int` over an `int` keeps the type. -/
theorem C5_type_after_update_witness :
    demoBoard.typeOf "progress" = some DemoType.int ∧
    (demoIntTask.doUpdate demoBoard).2.2.typeOf "progress" = some DemoType.int :=
  ⟨by decide,
    (@C5_type_after_update DemoType DemoVal DemoType.int DemoType.int "progress"
      (100 : Int) demoBoard (by decide)).1⟩

/-- C7: the blackboard after `doUpdate` is the blackboard before with the one write
`set<T>(k, v)` applied; for every other key `k'`, `has(k')`, the stored item (value and
type) and the result of every `get<U>(k')` are the same as before. -/
theorem C7_doUpdate_single_write {τ : Type} [DecidableEq τ] {Val : τ → Type} {T : τ}
    (k : String) (v : Val T) (b : Blackboard τ Val) :
    let after := ((TaskSetValue.new k v : TaskSetValue Val T).doUpdate b).2.2
    after = b.set T k v ∧
    ∀ k' : String, k' ≠ k →
      after.has k' = b.has k' ∧ after k' = b k' ∧ after.typeOf k' = b.typeOf k' ∧
      ∀ U : τ, after.get U k' = b.get U k' := by
  refine ⟨rfl, ?_⟩
  intro k' hk
  have hitem : ((TaskSetValue.new k v : TaskSetValue Val T).doUpdate b).2.2 k' = b k' := by
    simp [TaskSetValue.doUpdate, TaskSetValue.new, Blackboard.set, hk]
  refine ⟨?_, hitem, ?_, ?_⟩
  · simp only [Blackboard.has, hitem]
  · simp only [Blackboard.typeOf, hitem]
  · intro U
    simp only [Blackboard.get, hitem]

/-- C7 at a concrete input: writing `"other"` leaves `"progress"` as it was. -/
theorem C7_doUpdate_single_write_witness :
    "progress" ≠ "other" ∧
    ((TaskSetValue.new "other" (1 : Int) :
        TaskSetValue DemoVal DemoType.int).doUpdate demoBoard).2.2.typeOf "progress"
      = demoBoard.typeOf "progress" :=
  ⟨by decide,
    ((@C7_doUpdate_single_write DemoType _ DemoVal DemoType.int "other" (1 : Int)
      demoBoard).2 "progress" (by decide)).2.2.1⟩

/-! ## Lemmas: sets and the package loop -/

theorem mem_setInsert {P : Type} [LinearOrder P] (x a : P) (l : List P) :
    x ∈ setInsert a l ↔ x = a ∨ x ∈ l := by
  induction l with
  | nil => simp [setInsert]
  | cons y ys ih =>
    unfold setInsert
    by_cases h1 : a < y
    · rw [if_pos h1]
      simp
    · by_cases h2 : y < a
      · rw [if_neg h1, if_pos h2, List.mem_cons, ih, List.mem_cons]
        tauto
      · have hay : a = y := le_antisymm (not_lt.mp h2) (not_lt.mp h1)
        rw [if_neg h1, if_neg h2]
        subst hay
        simp

theorem stripPackage_success {P : Type} (ops : FilePathOps P) (l : List String) :
    ∀ p : P, (stripPackage ops p l).2 = true ↔
      ∀ i : Nat, i < l.length → l[i]? = some (ops.fileName (ops.parentDirectory^[i] p)) := by
  induction l with
  | nil => intro p; simp [stripPackage]
  | cons a l ih =>
    intro p
    unfold stripPackage
    by_cases h : ops.fileName p = a
    · simp only [h, bne_self_eq_false, Bool.false_eq_true, if_false, ih]
      constructor
      · intro hl i hi
        cases i with
        | zero => simp [h]
        | succ i =>
          have := hl i (by simpa using hi)
          simpa [Function.iterate_succ_apply] using this
      · intro hl i hi
        have := hl (i + 1) (by simpa using hi)
        simpa [Function.iterate_succ_apply] using this
    · have hne : (ops.fileName p != a) = true := by simpa using h
      simp only [hne, if_true, Bool.false_eq_true, false_iff]
      intro hl
      have := hl 0 (by simp)
      simp at this
      exact h this.symm

theorem stripPackage_root {P : Type} (ops : FilePathOps P) (l : List String) :
    ∀ p : P, (stripPackage ops p l).2 = true →
      (stripPackage ops p l).1 = ops.parentDirectory^[l.length] p := by
  induction l with
  | nil => intro p _; rfl
  | cons a l ih =>
    intro p
    unfold stripPackage
    by_cases h : ops.fileName p = a
    · simp only [h, bne_self_eq_false, Bool.false_eq_true, if_false]
      intro hs
      simpa [Function.iterate_succ_apply] using ih _ hs
    · have hne : (ops.fileName p != a) = true := by simpa using h
      simp [hne]

theorem stripPackage_reverse_iff {P : Type} (ops : FilePathOps P) (env : Collaborators P)
    (filePath : P) (hname : packageNameOf ops env filePath ≠ "") :
    (stripPackage ops (ops.parentDirectory filePath)
        (env.splitToVector (packageNameOf ops env filePath) ".").reverse).2 = true ↔
      packageChainMatches ops env filePath := by
  rw [stripPackage_success]
  unfold packageChainMatches
  simp only [List.length_reverse]
  constructor
  · intro h
    refine ⟨hname, fun i hi => ?_⟩
    have := h i hi
    rw [List.getElem?_reverse hi] at this
    simpa [Function.iterate_succ_apply] using this
  · rintro ⟨_, h⟩ i hi
    rw [List.getElem?_reverse hi]
    simpa [Function.iterate_succ_apply] using h i hi

theorem fetchRootStep_eq {P : Type} [LinearOrder P] (ops : FilePathOps P)
    (env : Collaborators P) (roots : List P) (filePath : P) :
    (packageChainMatches ops env filePath →
      fetchRootStep ops env roots filePath
        = setInsert (packageRoot ops env filePath) roots) ∧
    (¬ packageChainMatches ops env filePath →
      fetchRootStep ops env roots filePath = roots) := by
  by_cases hname : packageNameOf ops env filePath = ""
  · have hno : ¬ packageChainMatches ops env filePath := fun h => h.1 hname
    have hempty : (packageNameOf ops env filePath).isEmpty = true :=
      (String.isEmpty_iff _).mpr hname
    have hstep : fetchRootStep ops env roots filePath = roots := by
      unfold fetchRootStep
      simp only [hempty, if_true]
    exact ⟨fun h => absurd h hno, fun _ => hstep⟩
  · have hiff := stripPackage_reverse_iff ops env filePath hname
    have hempty : ¬ (packageNameOf ops env filePath).isEmpty = true :=
      fun h => hname ((String.isEmpty_iff _).mp h)
    constructor
    · intro hm
      have hs := hiff.mpr hm
      have hr := stripPackage_root ops _ _ hs
      unfold fetchRootStep
      simp only [if_neg hempty, hs, if_true, hr]
      simp [packageRoot]
    · intro hm
      have hs : ¬ (stripPackage ops (ops.parentDirectory filePath)
          (env.splitToVector (packageNameOf ops env filePath) ".").reverse).2 = true :=
        fun h => hm (hiff.mp h)
      unfold fetchRootStep
      simp only [if_neg hempty, if_neg hs]

theorem mem_foldl_fetchRootStep {P : Type} [LinearOrder P] (ops : FilePathOps P)
    (env : Collaborators P) (files : List P) :
    ∀ (roots : List P) (root : P),
      root ∈ files.foldl (fetchRootStep ops env) roots ↔
        root ∈ roots ∨ ∃ filePath ∈ files,
          packageChainMatches ops env filePath ∧ root = packageRoot ops env filePath := by
  induction files with
  | nil => intro roots root; simp
  | cons f files ih =>
    intro roots root
    rw [List.foldl_cons, ih]
    by_cases hm : packageChainMatches ops env f
    · rw [(fetchRootStep_eq ops env roots f).1 hm, mem_setInsert]
      constructor
      · rintro ((h | h) | ⟨g, hg, hgm, hgr⟩)
        · exact Or.inr ⟨f, List.mem_cons_self _ _, hm, h⟩
        · exact Or.inl h
        · exact Or.inr ⟨g, List.mem_cons_of_mem _ hg, hgm, hgr⟩
      · rintro (h | ⟨g, hg, hgm, hgr⟩)
        · exact Or.inl (Or.inr h)
        · rcases List.mem_cons.mp hg with rfl | hg
          · exact Or.inl (Or.inl hgr)
          · exact Or.inr ⟨g, hg, hgm, hgr⟩
    · rw [(fetchRootStep_eq ops env roots f).2 hm]
      constructor
      · rintro (h | ⟨g, hg, hgm, hgr⟩)
        · exact Or.inl h
        · exact Or.inr ⟨g, List.mem_cons_of_mem _ hg, hgm, hgr⟩
      · rintro (h | ⟨g, hg, hgm, hgr⟩)
        · exact Or.inl h
        · rcases List.mem_cons.mp hg with rfl | hg
          · exact absurd hgm hm
          · exact Or.inr ⟨g, hg, hgm, hgr⟩

/-! ## Lemmas: the loops of `getIndexerCommands` -/

theorem fetchRootDirectories_of_factory {P : Type} [LinearOrder P] (ops : FilePathOps P)
    (settings : JavaProjectSettings P) (env : Collaborators P) (project : JavaProject P)
    (hfactory : project.factoryInstance = true) :
    fetchRootDirectories ops settings env project
      = some (⟨some ((addedFiles ops settings env).foldl (fetchRootStep ops env) []),
          project.factoryInstance⟩, (updateFileManager ops settings env FileManager.new).2) := by
  unfold fetchRootDirectories addedFiles
  simp [hfactory]

theorem fetchRootDirectories_no_factory {P : Type} [LinearOrder P] (ops : FilePathOps P)
    (settings : JavaProjectSettings P) (env : Collaborators P) (project : JavaProject P)
    (hfactory : project.factoryInstance = false) :
    fetchRootDirectories ops settings env project = none := by
  unfold fetchRootDirectories
  simp [hfactory]

/-- C9: `prepareIndexing` returns false exactly when (a) no factory instance exists after
the creation attempt, or (b) the Maven project file exists, there is a GUI and
`mavenGenerateSources` fails.  The instance exists afterwards iff it existed before or the
creation made one; without a GUI `mavenGenerateSources` is not called; replacing
`mavenCopyDependencies` by any other function leaves the result unchanged; and
`createInstance` is called only when no instance existed. -/
theorem C9_prepareIndexing_result {P : Type} (ops : FilePathOps P)
    (settings : JavaProjectSettings P) (env : Collaborators P) (project : JavaProject P) :
    let result := prepareIndexing ops settings env project
    (result.1 = false ↔
      (result.2.1.factoryInstance = false ∨
        (ops.pathExists settings.getAbsoluteMavenProjectFilePath = true ∧
          env.hasGUI = true ∧
          env.mavenGenerateSources env.getMavenPath
            (ops.parentDirectory settings.getAbsoluteMavenProjectFilePath) = false))) ∧
    result.2.1.factoryInstance
      = (project.factoryInstance || (env.createInstance (javaClassPath env)).1) ∧
    (env.hasGUI = false → ∀ a b : P, Event.mavenGenerateSources a b ∉ result.2.2) ∧
    (∀ copy : P → P → P → Bool,
      (prepareIndexing ops settings (withMavenCopyDependencies env copy) project).1
        = result.1) ∧
    (∀ classPath : String,
      Event.createInstance classPath ∈ result.2.2 → project.factoryInstance = false) := by
  intro result
  have hcp : ∀ copy : P → P → P → Bool,
      javaClassPath (withMavenCopyDependencies env copy) = javaClassPath env := fun _ => rfl
  refine ⟨?_, ?_, ?_, ?_, ?_⟩
  · simp only [result, prepareIndexing, createFactory]
    cases project.factoryInstance <;> cases (env.createInstance (javaClassPath env)).1 <;>
      cases ops.pathExists settings.getAbsoluteMavenProjectFilePath <;>
      cases env.hasGUI <;>
      cases env.mavenGenerateSources env.getMavenPath
        (ops.parentDirectory settings.getAbsoluteMavenProjectFilePath) <;> simp
  · simp only [result, prepareIndexing, createFactory]
    cases project.factoryInstance <;> cases (env.createInstance (javaClassPath env)).1 <;>
      cases ops.pathExists settings.getAbsoluteMavenProjectFilePath <;>
      cases env.hasGUI <;>
      cases env.mavenGenerateSources env.getMavenPath
        (ops.parentDirectory settings.getAbsoluteMavenProjectFilePath) <;> simp
  · intro hgui a b
    simp only [result, prepareIndexing, createFactory, hgui]
    cases project.factoryInstance <;> cases (env.createInstance (javaClassPath env)).1 <;>
      cases ops.pathExists settings.getAbsoluteMavenProjectFilePath <;> simp
  · intro copy
    simp only [result, prepareIndexing, createFactory, hcp]
    simp only [withMavenCopyDependencies]
  · intro classPath
    simp only [result, prepareIndexing, createFactory]
    cases project.factoryInstance <;> cases (env.createInstance (javaClassPath env)).1 <;>
      cases ops.pathExists settings.getAbsoluteMavenProjectFilePath <;>
      cases env.hasGUI <;>
      cases env.mavenGenerateSources env.getMavenPath
        (ops.parentDirectory settings.getAbsoluteMavenProjectFilePath) <;> simp

/-- C9 at a concrete input: without a GUI the trace of `prepareIndexing` holds no call of
`mavenGenerateSources`. -/
theorem C9_prepareIndexing_result_witness :
    demoEnv.hasGUI = false ∧
    Event.mavenGenerateSources ([5] : DemoPath) [5, 5, 5, 5]
      ∉ (prepareIndexing demoOps demoSettings demoEnv demoProject).2.2 :=
  ⟨rfl, (C9_prepareIndexing_result demoOps demoSettings demoEnv demoProject).2.2.1 rfl
    [5] [5, 5, 5, 5]⟩

/-- C8: when a Java environment factory instance exists, `fetchRootDirectories` returns,
and its loop derives the roots as follows: a file inserts a root iff its package name is
not empty and the `n` innermost directory names above it are, from the innermost outward,
the package parts `pn, ..., p1`; the inserted root is the parent directory with those `n`
components removed; any other file (empty package name or a mismatch) inserts nothing.
The set stored in `m_rootDirectories` contains exactly the roots of the matching scanned
files. -/
theorem C8_fetchRootDirectories_roots {P : Type} [LinearOrder P] (ops : FilePathOps P)
    (settings : JavaProjectSettings P) (env : Collaborators P) (project : JavaProject P)
    (hfactory : project.factoryInstance = true) :
    (∀ (roots : List P) (filePath : P),
      (packageChainMatches ops env filePath →
        fetchRootStep ops env roots filePath
          = setInsert (packageRoot ops env filePath) roots) ∧
      (¬ packageChainMatches ops env filePath →
        fetchRootStep ops env roots filePath = roots) ∧
      (packageNameOf ops env filePath = "" →
        fetchRootStep ops env roots filePath = roots)) ∧
    (∀ (a x : P) (roots : List P), x ∈ setInsert a roots ↔ x = a ∨ x ∈ roots) ∧
    ∃ roots : List P,
      fetchRootDirectories ops settings env project
        = some (⟨some roots, project.factoryInstance⟩,
            (updateFileManager ops settings env FileManager.new).2) ∧
      ∀ root : P, root ∈ roots ↔
        ∃ filePath ∈ addedFiles ops settings env,
          packageChainMatches ops env filePath ∧ root = packageRoot ops env filePath := by
  refine ⟨fun roots filePath => ⟨(fetchRootStep_eq ops env roots filePath).1,
    (fetchRootStep_eq ops env roots filePath).2,
    fun hname => (fetchRootStep_eq ops env roots filePath).2 (fun h => h.1 hname)⟩,
    fun a x roots => mem_setInsert x a roots, ?_⟩
  refine ⟨_, fetchRootDirectories_of_factory ops settings env project hfactory,
    fun root => ?_⟩
  rw [mem_foldl_fetchRootStep]
  simp

/-- C8 at a concrete input: with a factory instance and the scanned file
`src/com/foo/Main.java` of package `com.foo`, `fetchRootDirectories` returns a set that
holds the root `src`. -/
theorem C8_fetchRootDirectories_roots_witness :
    preparedProject.factoryInstance = true ∧
    packageChainMatches demoOps demoEnv [0, 1, 2, 3] ∧
    ∃ roots : List DemoPath,
      fetchRootDirectories demoOps demoSettings demoEnv preparedProject
        = some (⟨some roots, true⟩, []) ∧ [0] ∈ roots := by
  have hchain : packageChainMatches demoOps demoEnv [0, 1, 2, 3] := by
    unfold packageChainMatches
    decide
  obtain ⟨roots, hfetch, hmem⟩ :=
    (C8_fetchRootDirectories_roots demoOps demoSettings demoEnv preparedProject rfl).2.2
  exact ⟨rfl, hchain, roots, hfetch,
    (hmem [0]).mpr ⟨[0, 1, 2, 3], by decide, hchain, by decide⟩⟩

end Sourcetrail
